import Mathlib

/-!
Verification of the personal finance tracker (`app.py`) against its
natural-language specification.  The Python code is shallowly embedded:
Python strings become `String`, monetary floats become `ℚ`, Firestore
collections become association lists from document ids to documents, and
the operations of `GerenciadorDados` together with the aggregation logic
of `app_principal` are translated into executable Lean functions.
-/

namespace ControleFinanceiro

/-! ## Embedded definitions -/

/-- Models Python `str.strip()`: removes leading and trailing whitespace. -/
def pyStrip (s : String) : String :=
  ⟨((s.data.dropWhile Char.isWhitespace).reverse.dropWhile Char.isWhitespace).reverse⟩

/-- Models Python `str.lower()` (ASCII fragment, as `Char.toLower`). -/
def pyLower (s : String) : String :=
  ⟨s.data.map Char.toLower⟩

/-- Models Python `categoria.replace(' ', '_')`: every space becomes an underscore. -/
def pyUnderscore (s : String) : String :=
  ⟨s.data.map (fun c => if c = ' ' then '_' else c)⟩

/-- The two-sided whitespace strip on character lists. -/
def stripL (l : List Char) : List Char :=
  ((l.dropWhile Char.isWhitespace).reverse.dropWhile Char.isWhitespace).reverse

/-- One document of the `lancamentos` collection, the payload written by
`salvar_transacao` (the server timestamp is modelled as a `Nat` clock; the
`data_atualizacao` ISO string carries no further information and is folded
into the same clock). -/
structure Lancamento where
  email : String
  mes_ano : String
  categoria : String
  tipo : String
  valor : ℚ
  timestamp : Nat
deriving DecidableEq, Repr

/-- A Firestore collection: association list from document id to document. -/
abbrev Collection (α : Type) : Type := List (String × α)

/-- Firestore `collection.document(id).set(payload)`: full replacement of the
document with this id (created if absent). -/
def setDoc {α : Type} : Collection α → String → α → Collection α
  | [], i, p => [(i, p)]
  | (k, q) :: rest, i, p =>
    if k = i then (i, p) :: rest else (k, q) :: setDoc rest i p

/-- Firestore `collection.document(id).get()`. -/
def getDoc {α : Type} : Collection α → String → Option α
  | [], _ => none
  | (k, q) :: rest, i => if k = i then some q else getDoc rest i

/-- A stored `usuarios/{email}` document.  Each of the three category-list
fields of the dynamic Firestore dict may be absent (older profiles). -/
structure UserDoc where
  receitas : Option (List String)
  despesas : Option (List String)
  investimentos : Option (List String)
deriving DecidableEq, Repr

/-- The dict `{}` returned by `carregar_configuracoes` when the storage layer
raises: every `.get(key, [])` on it yields `[]`. -/
def emptyDoc : UserDoc := ⟨none, none, none⟩

/-- The list `config_padrao['receitas']`. -/
def config_padrao_receitas : List String := ["Salário", "Freelance", "Dividendos", "Bônus"]

/-- The list `config_padrao['despesas']`. -/
def config_padrao_despesas : List String :=
  ["Aluguel", "Condomínio", "Mercado", "Lazer", "Uber/Transporte", "Saúde",
   "Assinaturas", "Educação"]

/-- The list `config_padrao['investimentos']`. -/
def config_padrao_investimentos : List String :=
  ["CDB", "Ações", "FIIs", "Cripto", "Reserva de Emergência", "Caixinha Nubank"]

/-- The default `config_padrao` as a stored document (all three keys present). -/
def padraoDoc : UserDoc :=
  ⟨some config_padrao_receitas, some config_padrao_despesas, some config_padrao_investimentos⟩

/-- Models `GerenciadorDados.verificar_usuario(email)` over the ids of the documents
of the `usuarios` collection (the allow-list).  Returns the boolean result
together with the number of storage lookups performed. -/
def verificar_usuario (usuarios : List String) (email : String) : Bool × Nat :=
  if email = "" then (false, 0)
  else ((pyLower (pyStrip email)) ∈ usuarios, 1)

/-- Models `GerenciadorDados.carregar_configuracoes(email)` acting on the user's
stored `usuarios` document.  `fault = true` models the storage layer raising an
exception inside the `try` block (the `except` branch reports the error to the
UI and returns `{}`).  Result: (stored document afterwards, returned dict,
number of storage writes). -/
def carregar_configuracoes (fault : Bool) (doc : Option UserDoc) :
    Option UserDoc × UserDoc × Nat :=
  if fault then (doc, emptyDoc, 0)
  else
    match doc with
    | none => (some padraoDoc, padraoDoc, 1)
    | some d =>
      let merged : UserDoc :=
        ⟨some (d.receitas.getD config_padrao_receitas),
         some (d.despesas.getD config_padrao_despesas),
         some (d.investimentos.getD config_padrao_investimentos)⟩
      let atualizou := d.receitas.isNone || d.despesas.isNone || d.investimentos.isNone
      if atualizou then (some merged, merged, 1) else (some d, d, 0)

/-- Iterated `carregar_configuracoes` (no faults): final stored document, the
list of returned dicts, and the total number of storage writes. -/
def carregarN : Nat → Option UserDoc → Option UserDoc × List UserDoc × Nat
  | 0, doc => (doc, [], 0)
  | n + 1, doc =>
    let r := carregar_configuracoes false doc
    let rest := carregarN n r.1
    (rest.1, r.2.1 :: rest.2.1, r.2.2 + rest.2.2)

/-- The composite document id built by `salvar_transacao`:
`f"{email}_{mes_ano}_{categoria.replace(' ', '_').lower()}"`. -/
def doc_id (email mes_ano categoria : String) : String :=
  email ++ "_" ++ mes_ano ++ "_" ++ pyLower (pyUnderscore categoria)

/-- Models `GerenciadorDados.salvar_transacao`: unconditionally builds the composite
id and fully replaces the `lancamentos` document with a fresh payload
(`float(valor)` is the identity in the `ℚ` model; the server timestamp is the
`clock` argument).  Returns the new collection and the `True` result. -/
def salvar_transacao (lanc : Collection Lancamento) (clock : Nat)
    (email mes_ano categoria tipo : String) (valor : ℚ) :
    Collection Lancamento × Bool :=
  (setDoc lanc (doc_id email mes_ano categoria)
    { email := email, mes_ano := mes_ano, categoria := categoria,
      tipo := tipo, valor := valor, timestamp := clock }, true)

/-- Models `GerenciadorDados.buscar_todos_dados(email)`:
`lancamentos.where('email', '==', email)`, returned as a list of rows. -/
def buscar_todos_dados (lanc : Collection Lancamento) (email : String) :
    List Lancamento :=
  (lanc.filter (fun kv => kv.2.email = email)).map (fun kv => kv.2)

/-- The three category-list fields, i.e. the values of `mapa_campos`. -/
inductive Campo where
  | receitas
  | despesas
  | investimentos
deriving DecidableEq, Repr

/-- Read one field of a `usuarios` document. -/
def UserDoc.getCampo (d : UserDoc) : Campo → Option (List String)
  | .receitas => d.receitas
  | .despesas => d.despesas
  | .investimentos => d.investimentos

/-- Overwrite one field of a `usuarios` document. -/
def UserDoc.setCampo (d : UserDoc) : Campo → Option (List String) → UserDoc
  | .receitas, v => { d with receitas := v }
  | .despesas, v => { d with despesas := v }
  | .investimentos, v => { d with investimentos := v }

/-- The dict `mapa_campos = {'Receita': 'receitas', 'Despesa': 'despesas',
'Investimento': 'investimentos'}` read with `.get(tipo)`. -/
def mapa_campos (tipo : String) : Option Campo :=
  if tipo = "Receita" then some .receitas
  else if tipo = "Despesa" then some .despesas
  else if tipo = "Investimento" then some .investimentos
  else none

/-- Firestore `ArrayUnion([v])` applied to a (possibly absent) array field:
appends `v` if it is not already present. -/
def arrayUnion (l : Option (List String)) (v : String) : Option (List String) :=
  some (if v ∈ l.getD [] then l.getD [] else l.getD [] ++ [v])

/-- Firestore `ArrayRemove([v])` applied to a (possibly absent) array field:
removes every occurrence of `v`. -/
def arrayRemove (l : Option (List String)) (v : String) : Option (List String) :=
  some ((l.getD []).filter (fun x => ¬ x = v))

/-- The whole database: the `usuarios` and `lancamentos` collections. -/
structure Banco where
  usuarios : Collection UserDoc
  lancamentos : Collection Lancamento
deriving DecidableEq

/-- Models `GerenciadorDados.gerenciar_categoria(email, tipo, categoria, acao)`.
`none` models the bare `return` (Python `None`) on an unknown `tipo`;
`some false` models the `except` branch (Firestore raises when updating a
non-existent document); `some true` is the success return. -/
def gerenciar_categoria (b : Banco) (email tipo categoria acao : String) :
    Banco × Option Bool :=
  match mapa_campos tipo with
  | none => (b, none)
  | some campo =>
    match getDoc b.usuarios email with
    | none => (b, some false)
    | some d =>
      let d' :=
        if acao = "adicionar" then d.setCampo campo (arrayUnion (d.getCampo campo) categoria)
        else if acao = "remover" then d.setCampo campo (arrayRemove (d.getCampo campo) categoria)
        else d
      (⟨setDoc b.usuarios email d', b.lancamentos⟩, some true)

/-- The authentication flow of `tela_login`: the submitted text is normalized
by `.strip().lower()`, an empty result is rejected with a warning before any
storage access, otherwise `verificar_usuario` decides.  Returns (authorized,
number of storage lookups). -/
def tela_login_auth (usuarios : List String) (raw : String) : Bool × Nat :=
  let email_input := pyLower (pyStrip raw)
  if email_input = "" then (false, 0)
  else verificar_usuario usuarios email_input

/-- The sum `df[df['tipo'] == t]['valor'].sum()`. -/
def somaTipo (df : List Lancamento) (t : String) : ℚ :=
  ((df.filter (fun r => r.tipo = t)).map (fun r => r.valor)).sum

/-- The value `rec`: the monthly income total of the dashboard. -/
def receita_mes (df : List Lancamento) : ℚ := somaTipo df "Receita"

/-- The value `desp`: the monthly expense total of the dashboard. -/
def despesa_mes (df : List Lancamento) : ℚ := somaTipo df "Despesa"

/-- The value `inv`: the monthly investment total of the dashboard. -/
def investimento_mes (df : List Lancamento) : ℚ := somaTipo df "Investimento"

/-- The net cash `saldo = rec - desp - inv`. -/
def saldo_mes (df : List Lancamento) : ℚ :=
  receita_mes df - despesa_mes df - investimento_mes df

/-- The savings rate `taxa_poupanca_real = (inv / rec * 100) if rec > 0 else 0`
(the savings rate, expressed in percent). -/
def taxa_poupanca_real (df : List Lancamento) : ℚ :=
  if 0 < receita_mes df then investimento_mes df / receita_mes df * 100 else 0

/-- The index of `pivot_anual`: the distinct `mes_ano` keys, sorted ascending
(pandas `pivot_table` sorts the index lexicographically). -/
def periodos (df : List Lancamento) : List String :=
  ((df.map (fun r => r.mes_ano)).dedup).mergeSort (fun a b => a ≤ b)

/-- The `Investimento` cell of pivot row `p`: the summed investment amounts of
that period, `fill_value=0` when the period has no investment record. -/
def invPeriodo (df : List Lancamento) (p : String) : ℚ :=
  somaTipo (df.filter (fun r => r.mes_ano = p)) "Investimento"

/-- Pandas `cumsum` over a column, with running accumulator. -/
def cumsum (acc : ℚ) : List ℚ → List ℚ
  | [] => []
  | x :: xs => (acc + x) :: cumsum (acc + x) xs

/-- The column `pivot_anual['Patrimonio_Acumulado'] = pivot_anual['Investimento'].cumsum()`:
the cumulative investment column along the sorted period index. -/
def patrimonio_acumulado (df : List Lancamento) : List ℚ :=
  cumsum 0 ((periodos df).map (invPeriodo df))

/-- The Receitas tab loop of `app_principal`: iterates over the user's income
categories, silently skipping any category that also appears in the
investment list; each rendered category shows a `number_input` (initial value
`mapa_valores.get(categoria, 0.0)`, new value chosen by the user, modelled by
`novo_valor`), issues `salvar_transacao(..., 'Receita', novo_valor)` exactly
when the value changed, and adds the new value to the displayed total.
Result: (rendered categories, issued upserts as (categoria, valor) pairs,
`total_receitas`). -/
def tab_receitas : List String → List String → (String → ℚ) → (String → ℚ) →
    List String × List (String × ℚ) × ℚ
  | [], _, _, _ => ([], [], 0)
  | c :: rest, lista_investimentos, mapa_valores, novo_valor =>
    let r := tab_receitas rest lista_investimentos mapa_valores novo_valor
    if c ∈ lista_investimentos then r
    else
      (c :: r.1,
       if novo_valor c = mapa_valores c then r.2.1 else (c, novo_valor c) :: r.2.1,
       novo_valor c + r.2.2)

/-- The §8 scenario: user `a@x.com`, period `2026-01`, records
Income/Salary = 5000, Expense/Rent = 1500, Investment/CDB = 1000. -/
def dfScenario : List Lancamento :=
  [⟨"a@x.com", "2026-01", "Salary", "Receita", 5000, 0⟩,
   ⟨"a@x.com", "2026-01", "Rent", "Despesa", 1500, 0⟩,
   ⟨"a@x.com", "2026-01", "CDB", "Investimento", 1000, 0⟩]

/-- The §8 annual scenario: the monthly scenario records plus
`2026-02: Investment/CDB = 500`. -/
def dfAnnual : List Lancamento :=
  dfScenario ++ [⟨"a@x.com", "2026-02", "CDB", "Investimento", 500, 0⟩]

/-- A one-user database whose income category list is `["A"]`. -/
def bancoA : Banco := ⟨[("u", ⟨some ["A"], some [], some []⟩)], []⟩

/-! ## Theorems -/

theorem char_toNat_ofNat {m : Nat} (h : m < 55296) : (Char.ofNat m).toNat = m := by
  rw [Char.ofNat, dif_pos (Or.inl h)]
  rfl

theorem char_eq_iff_toNat {c d : Char} : c = d ↔ c.toNat = d.toNat := by
  constructor
  · intro h; rw [h]
  · intro h
    have := congrArg Char.ofNat h
    rwa [Char.ofNat_toNat, Char.ofNat_toNat] at this

theorem char_isWhitespace_iff {c : Char} :
    c.isWhitespace = true ↔ (c.toNat = 32 ∨ c.toNat = 9 ∨ c.toNat = 13 ∨ c.toNat = 10) := by
  simp only [Char.isWhitespace, Bool.or_eq_true, decide_eq_true_eq, char_eq_iff_toNat,
    show (' ').toNat = 32 from rfl, show ('\t').toNat = 9 from rfl,
    show ('\r').toNat = 13 from rfl, show ('\n').toNat = 10 from rfl]
  tauto

theorem char_toLower_of_upper {c : Char} (h1 : 65 ≤ c.toNat) (h2 : c.toNat ≤ 90) :
    (Char.toLower c).toNat = c.toNat + 32 := by
  rw [Char.toLower, if_pos ⟨h1, h2⟩]
  exact char_toNat_ofNat (by omega)

theorem char_toLower_of_not_upper {c : Char} (h : ¬(65 ≤ c.toNat ∧ c.toNat ≤ 90)) :
    Char.toLower c = c := by
  rw [Char.toLower, if_neg h]

theorem char_isWhitespace_toLower (c : Char) :
    (Char.toLower c).isWhitespace = c.isWhitespace := by
  by_cases h : 65 ≤ c.toNat ∧ c.toNat ≤ 90
  · have hl := char_toLower_of_upper h.1 h.2
    have h1 : (Char.toLower c).isWhitespace = false := by
      rw [← Bool.not_eq_true, char_isWhitespace_iff]
      omega
    have h2 : c.isWhitespace = false := by
      rw [← Bool.not_eq_true, char_isWhitespace_iff]
      omega
    rw [h1, h2]
  · rw [char_toLower_of_not_upper h]

theorem char_toLower_toLower (c : Char) :
    Char.toLower (Char.toLower c) = Char.toLower c := by
  by_cases h : 65 ≤ c.toNat ∧ c.toNat ≤ 90
  · have hl := char_toLower_of_upper h.1 h.2
    exact char_toLower_of_not_upper (by omega)
  · rw [char_toLower_of_not_upper h, char_toLower_of_not_upper h]

theorem dropWhile_dropWhile_self {α : Type} (p : α → Bool) (l : List α) :
    (l.dropWhile p).dropWhile p = l.dropWhile p := by
  cases h : l.dropWhile p with
  | nil => rfl
  | cons a t =>
    have ha : p a = false := by
      have h2 := List.head?_dropWhile_not p l
      rw [h] at h2
      simpa using h2
    rw [List.dropWhile_cons_of_neg (by rw [ha]; exact Bool.false_ne_true)]

theorem head?_rstrip_not {p : Char → Bool} (y : List Char)
    (hy : ∀ a, y.head? = some a → p a = false) (a : Char)
    (h : ((y.reverse.dropWhile p).reverse).head? = some a) : p a = false := by
  obtain ⟨t, ht⟩ := List.dropWhile_suffix (l := y.reverse) p
  have h1 : (y.reverse.dropWhile p).getLast? = some a := by
    rw [← List.head?_reverse]
    exact h
  have h2 : y.reverse.getLast? = some a := by
    rw [← ht, List.getLast?_append, h1]
    rfl
  apply hy
  rw [← List.head?_reverse, List.reverse_reverse] at h2
  exact h2

theorem head?_stripL_not (l : List Char) (a : Char) (h : (stripL l).head? = some a) :
    a.isWhitespace = false := by
  apply head?_rstrip_not (l.dropWhile Char.isWhitespace) _ a h
  intro b hb
  have h2 := List.head?_dropWhile_not Char.isWhitespace l
  rw [hb] at h2
  simpa using h2

theorem dropWhile_stripL (l : List Char) :
    (stripL l).dropWhile Char.isWhitespace = stripL l := by
  cases h : stripL l with
  | nil => rfl
  | cons a t =>
    have ha : a.isWhitespace = false := head?_stripL_not l a (by rw [h]; rfl)
    rw [List.dropWhile_cons_of_neg (by rw [ha]; exact Bool.false_ne_true)]

theorem stripL_stripL (l : List Char) : stripL (stripL l) = stripL l := by
  have h1 : (stripL l).dropWhile Char.isWhitespace = stripL l := dropWhile_stripL l
  show (((stripL l).dropWhile Char.isWhitespace).reverse.dropWhile Char.isWhitespace).reverse
      = stripL l
  rw [h1]
  show (((((l.dropWhile Char.isWhitespace).reverse.dropWhile
      Char.isWhitespace).reverse).reverse.dropWhile Char.isWhitespace)).reverse = stripL l
  rw [List.reverse_reverse, dropWhile_dropWhile_self]
  rfl

theorem stripL_map_toLower (l : List Char) :
    stripL (l.map Char.toLower) = (stripL l).map Char.toLower := by
  have hcomp : (Char.isWhitespace ∘ Char.toLower) = Char.isWhitespace := by
    funext c
    exact char_isWhitespace_toLower c
  show (((l.map Char.toLower).dropWhile Char.isWhitespace).reverse.dropWhile
      Char.isWhitespace).reverse = (stripL l).map Char.toLower
  rw [List.dropWhile_map, hcomp, ← List.map_reverse, List.dropWhile_map, hcomp,
    ← List.map_reverse]
  rfl

theorem pyStrip_pyLower (s : String) : pyStrip (pyLower s) = pyLower (pyStrip s) := by
  show String.mk (stripL (s.data.map Char.toLower))
      = String.mk ((stripL s.data).map Char.toLower)
  exact congrArg String.mk (stripL_map_toLower s.data)

theorem pyLower_pyLower (s : String) : pyLower (pyLower s) = pyLower s := by
  show String.mk ((s.data.map Char.toLower).map Char.toLower)
      = String.mk (s.data.map Char.toLower)
  apply congrArg String.mk
  rw [List.map_map]
  apply List.map_congr_left
  intro c _
  exact char_toLower_toLower c

theorem pyStrip_pyStrip (s : String) : pyStrip (pyStrip s) = pyStrip s := by
  show String.mk (stripL (stripL s.data)) = String.mk (stripL s.data)
  exact congrArg String.mk (stripL_stripL s.data)

/-- Applying the login normalization (`strip` then `lower`) twice is the same as
applying it once; `verificar_usuario` re-normalizes an already normalized input
without changing it. -/
theorem norm_norm (s : String) :
    pyLower (pyStrip (pyLower (pyStrip s))) = pyLower (pyStrip s) := by
  rw [pyStrip_pyLower, pyStrip_pyStrip, pyLower_pyLower]

theorem getDoc_setDoc_self {α : Type} (l : Collection α) (i : String) (p : α) :
    getDoc (setDoc l i p) i = some p := by
  induction l with
  | nil => simp [setDoc, getDoc]
  | cons kv rest ih =>
    obtain ⟨k, q⟩ := kv
    by_cases h : k = i
    · simp [setDoc, getDoc, h]
    · simp [setDoc, getDoc, h, ih]

theorem getDoc_setDoc_ne {α : Type} (l : Collection α) (i j : String) (p : α)
    (h : j ≠ i) : getDoc (setDoc l i p) j = getDoc l j := by
  induction l with
  | nil => simp [setDoc, getDoc, Ne.symm h]
  | cons kv rest ih =>
    obtain ⟨k, q⟩ := kv
    by_cases hk : k = i
    · subst hk
      have hkj : ¬ k = j := fun hh => h hh.symm
      simp [setDoc, getDoc, hkj]
    · simp only [setDoc, if_neg hk, getDoc]
      by_cases hkj : k = j
      · simp [hkj]
      · simp [hkj, ih]

theorem setDoc_of_getDoc_eq {α : Type} (l : Collection α) (i : String) (p : α)
    (h : getDoc l i = some p) : setDoc l i p = l := by
  induction l with
  | nil => simp [getDoc] at h
  | cons kv rest ih =>
    obtain ⟨k, q⟩ := kv
    by_cases hk : k = i
    · subst hk
      rw [getDoc, if_pos rfl] at h
      injection h with h
      rw [setDoc, if_pos rfl, h]
    · rw [getDoc, if_neg hk] at h
      simp [setDoc, hk, ih h]

theorem map_fst_setDoc {α : Type} (l : Collection α) (i : String) (p : α) :
    (setDoc l i p).map Prod.fst =
      if i ∈ l.map Prod.fst then l.map Prod.fst else l.map Prod.fst ++ [i] := by
  induction l with
  | nil => simp [setDoc]
  | cons kv rest ih =>
    obtain ⟨k, q⟩ := kv
    by_cases h : k = i
    · simp [setDoc, h]
    · have hik : ¬ i = k := fun hh => h hh.symm
      simp only [setDoc, if_neg h, List.map_cons, ih, List.mem_cons]
      by_cases hm : i ∈ rest.map Prod.fst
      · simp [hm, hik]
      · simp [hm, hik]

theorem countP_eq_zero_of_not_mem_keys {α : Type} (l : Collection α) (i : String)
    (h : i ∉ l.map Prod.fst) :
    l.countP (fun kv => kv.1 == i) = 0 := by
  rw [List.countP_eq_zero]
  intro kv hkv
  simp only [beq_iff_eq]
  intro heq
  exact h (List.mem_map.mpr ⟨kv, hkv, heq⟩)

theorem countP_setDoc {α : Type} (l : Collection α) (i : String) (p : α)
    (h : (l.map Prod.fst).Nodup) :
    (setDoc l i p).countP (fun kv => kv.1 == i) = 1 := by
  induction l with
  | nil => simp [setDoc]
  | cons kv rest ih =>
    obtain ⟨k, q⟩ := kv
    simp only [List.map_cons, List.nodup_cons] at h
    by_cases hk : k = i
    · subst hk
      rw [setDoc, if_pos rfl, List.countP_cons]
      simp [countP_eq_zero_of_not_mem_keys rest k h.1]
    · rw [setDoc, if_neg hk, List.countP_cons]
      simp [hk, ih h.2]

theorem somaTipo_nonneg (df : List Lancamento) (t : String)
    (h : ∀ r ∈ df, 0 ≤ r.valor) : 0 ≤ somaTipo df t := by
  apply List.sum_nonneg
  intro x hx
  simp only [somaTipo, List.mem_map, List.mem_filter] at hx
  obtain ⟨r, ⟨hr, _⟩, rfl⟩ := hx
  exact h r hr

/-- C2: for every set of one period's records, the monthly aggregate sums
`valor` grouped by `tipo` and satisfies `saldo = rec - desp - inv` and
`taxa_poupanca_real = inv / rec * 100` (percent), with rate `0` when the
income is `0` and all totals `0` on an empty record set; on the scenario
records (Income/Salary = 5000, Expense/Rent = 1500, Investment/CDB = 1000) it
yields income 5000, expense 1500, investment 1000, net cash 2500 and a
savings rate of 20%. -/
theorem monthly_aggregate_correct (df : List Lancamento)
    (hpos : ∀ r ∈ df, 0 ≤ r.valor) :
    saldo_mes df = receita_mes df - despesa_mes df - investimento_mes df ∧
    (receita_mes df = 0 → taxa_poupanca_real df = 0) ∧
    (receita_mes df ≠ 0 →
      taxa_poupanca_real df = investimento_mes df / receita_mes df * 100) ∧
    (receita_mes [] = 0 ∧ despesa_mes [] = 0 ∧ investimento_mes [] = 0 ∧
      saldo_mes [] = 0 ∧ taxa_poupanca_real [] = 0) ∧
    (receita_mes dfScenario = 5000 ∧ despesa_mes dfScenario = 1500 ∧
      investimento_mes dfScenario = 1000 ∧ saldo_mes dfScenario = 2500 ∧
      taxa_poupanca_real dfScenario = 20) := by
  refine ⟨rfl, ?_, ?_,
    by simp [receita_mes, despesa_mes, investimento_mes, saldo_mes,
      taxa_poupanca_real, somaTipo],
    by simp +decide [receita_mes, despesa_mes, investimento_mes, saldo_mes,
      taxa_poupanca_real, somaTipo, dfScenario, List.filter_cons]; norm_num⟩
  · intro h
    rw [taxa_poupanca_real, h]
    norm_num
  · intro h
    have h0 : 0 ≤ receita_mes df := somaTipo_nonneg df "Receita" hpos
    rw [taxa_poupanca_real, if_pos (lt_of_le_of_ne h0 (Ne.symm h))]

theorem monthly_aggregate_correct_witness :
    taxa_poupanca_real dfScenario
      = investimento_mes dfScenario / receita_mes dfScenario * 100 :=
  (monthly_aggregate_correct dfScenario (by decide)).2.2.1
    (by simp +decide [receita_mes, somaTipo, dfScenario, List.filter_cons])

theorem cumsum_length (acc : ℚ) (l : List ℚ) : (cumsum acc l).length = l.length := by
  induction l generalizing acc with
  | nil => rfl
  | cons x xs ih => simp [cumsum, ih]

theorem cumsum_getElem (acc : ℚ) (l : List ℚ) (i : Nat)
    (hi : i < (cumsum acc l).length) :
    (cumsum acc l)[i] = acc + (l.take (i + 1)).sum := by
  induction l generalizing acc i with
  | nil => simp [cumsum] at hi
  | cons x xs ih =>
    cases i with
    | zero => simp [cumsum]
    | succ j =>
      have hj : j < (cumsum (acc + x) xs).length := by
        simpa [cumsum] using hi
      have hstep := ih (acc + x) j hj
      simp only [cumsum, List.getElem_cons_succ, hstep, List.take_succ_cons,
        List.sum_cons]
      ring

theorem cumsum_chain (acc : ℚ) (l : List ℚ) (h : ∀ x ∈ l, 0 ≤ x) :
    List.Chain' (· ≤ ·) (cumsum acc l) := by
  induction l generalizing acc with
  | nil => simp [cumsum]
  | cons x xs ih =>
    rw [cumsum, List.chain'_cons']
    refine ⟨?_, ih (acc + x) (fun y hy => h y (List.mem_cons_of_mem x hy))⟩
    intro b hb
    cases xs with
    | nil => simp [cumsum] at hb
    | cons y ys =>
      simp only [cumsum, List.head?_cons, Option.mem_def, Option.some.injEq] at hb
      subst hb
      have hy : 0 ≤ y := h y (List.mem_cons_of_mem x (List.mem_cons_self y ys))
      linarith

theorem periodos_perm (df : List Lancamento) :
    (periodos df).Perm ((df.map (fun r => r.mes_ano)).dedup) :=
  List.mergeSort_perm _ _

/-- C3: the annual aggregate orders the period groups (exactly the distinct
`mes_ano` keys of the records, without duplicates) chronologically by
lexicographic string comparison; the cumulative-investment column at index `i`
equals the sum of the investment totals of all periods up to and including it;
for non-negative amounts the column is non-decreasing; and a period all of
whose records are non-investment contributes `0` to its own investment total
(the cumulative value still carrying prior periods forward by the sum
characterization). -/
theorem annual_aggregate_correct (df : List Lancamento) (p : String) (i : Nat)
    (hi : i < (patrimonio_acumulado df).length)
    (hpos : ∀ r ∈ df, 0 ≤ r.valor)
    (hnoinv : ∀ r ∈ df, r.mes_ano = p → ¬ r.tipo = "Investimento") :
    List.Sorted (· ≤ ·) (periodos df) ∧
    (periodos df).Nodup ∧
    (∀ q, q ∈ periodos df ↔ q ∈ df.map (fun r => r.mes_ano)) ∧
    (patrimonio_acumulado df)[i] =
      (((periodos df).take (i + 1)).map (invPeriodo df)).sum ∧
    List.Chain' (· ≤ ·) (patrimonio_acumulado df) ∧
    invPeriodo df p = 0 := by
  refine ⟨List.sorted_mergeSort' _, ?_, ?_, ?_, ?_, ?_⟩
  · exact ((periodos_perm df).nodup_iff).mpr ((df.map (fun r => r.mes_ano)).nodup_dedup)
  · intro q
    rw [(periodos_perm df).mem_iff, List.mem_dedup]
  · have hi' : i < (cumsum 0 ((periodos df).map (invPeriodo df))).length := hi
    have h := cumsum_getElem 0 ((periodos df).map (invPeriodo df)) i hi'
    rw [zero_add, ← List.map_take] at h
    exact h
  · apply cumsum_chain
    intro x hx
    simp only [List.mem_map] at hx
    obtain ⟨q, _, rfl⟩ := hx
    apply somaTipo_nonneg
    intro r hr
    exact hpos r (List.mem_filter.mp hr).1
  · rw [invPeriodo, somaTipo]
    have hnil : (df.filter (fun r => r.mes_ano = p)).filter
        (fun r => r.tipo = "Investimento") = [] := by
      rw [List.filter_eq_nil_iff]
      intro r hr
      have h1 := List.mem_filter.mp hr
      simpa using hnoinv r h1.1 (by simpa using h1.2)
    rw [hnil]
    rfl

theorem annual_aggregate_correct_witness :
    1 < (patrimonio_acumulado dfAnnual).length ∧
    (List.Chain' (· ≤ ·) (patrimonio_acumulado dfAnnual) ∧
      invPeriodo dfAnnual "2026-03" = 0) := by
  have hlen : 1 < (patrimonio_acumulado dfAnnual).length := by
    have h1 : (patrimonio_acumulado dfAnnual).length = (periodos dfAnnual).length := by
      rw [patrimonio_acumulado, cumsum_length, List.length_map]
    rw [h1, periodos, List.length_mergeSort]
    decide
  exact ⟨hlen,
    (annual_aggregate_correct dfAnnual "2026-03" 1 hlen (by decide) (by decide)).2.2.2.2⟩

/-- C6: the login flow first normalizes the submitted identifier by trimming
and lower-casing; an identifier that is empty after normalization is denied
without any storage lookup; otherwise exactly one lookup happens and access is
authorized iff the normalized identifier is an id of the `usuarios`
collection; in particular `"  A@X.com "` is authorized iff the allow-list
contains `"a@x.com"`. -/
theorem authenticate_correct (usuarios : List String) (raw : String) :
    (pyLower (pyStrip raw) = "" → tela_login_auth usuarios raw = (false, 0)) ∧
    (pyLower (pyStrip raw) ≠ "" →
      (tela_login_auth usuarios raw).2 = 1 ∧
      ((tela_login_auth usuarios raw).1 = true ↔ pyLower (pyStrip raw) ∈ usuarios)) ∧
    ((tela_login_auth usuarios "  A@X.com ").1 = true ↔ "a@x.com" ∈ usuarios) := by
  refine ⟨?_, ?_, ?_⟩
  · intro h
    simp [tela_login_auth, h]
  · intro h
    simp only [tela_login_auth, if_neg h, verificar_usuario, norm_norm, if_neg h]
    simp
  · have he : pyLower (pyStrip "  A@X.com ") = "a@x.com" := by decide
    have hne : pyLower (pyStrip "  A@X.com ") ≠ "" := by decide
    simp only [tela_login_auth, if_neg hne, verificar_usuario, norm_norm, if_neg hne, he]
    have hne2 : ("a@x.com" : String) ≠ "" := by decide
    have he2 : pyLower (pyStrip "a@x.com") = "a@x.com" := by decide
    rw [if_neg hne2]
    simp [he2]

theorem authenticate_correct_witness :
    pyLower (pyStrip "  A@X.com ") ≠ "" ∧
    ((tela_login_auth ["a@x.com"] "  A@X.com ").2 = 1 ∧
      ((tela_login_auth ["a@x.com"] "  A@X.com ").1 = true ↔
        pyLower (pyStrip "  A@X.com ") ∈ ["a@x.com"])) :=
  ⟨by decide, (authenticate_correct ["a@x.com"] "  A@X.com ").2.1 (by decide)⟩

theorem carregar_writes_zero (d : UserDoc) (h1 : d.receitas.isSome)
    (h2 : d.despesas.isSome) (h3 : d.investimentos.isSome) :
    carregar_configuracoes false (some d) = (some d, d, 0) := by
  rcases d with ⟨_ | r, _ | s, _ | i⟩ <;> simp_all [carregar_configuracoes]

theorem carregar_stored_full (doc : Option UserDoc) :
    ∃ d, (carregar_configuracoes false doc).1 = some d ∧
      d.receitas.isSome ∧ d.despesas.isSome ∧ d.investimentos.isSome := by
  match doc with
  | none => exact ⟨padraoDoc, rfl, rfl, rfl, rfl⟩
  | some d => rcases d with ⟨_ | r, _ | s, _ | i⟩ <;> simp [carregar_configuracoes]

theorem carregarN_padrao (m : Nat) :
    carregarN m (some padraoDoc) = (some padraoDoc, List.replicate m padraoDoc, 0) := by
  induction m with
  | zero => rfl
  | succ k ih =>
    simp [carregarN, carregar_writes_zero padraoDoc rfl rfl rfl, ih,
      List.replicate_succ]

/-- C4: `carregar_configuracoes` is additive and idempotent.  A second call
right after any call performs no storage write; `n ≥ 1` calls on a fresh user
return the default profile every time with exactly one creation write; and on
an existing document it returns (and stores) the document completed with the
default value for exactly the missing fields, every present field kept
unchanged. -/
theorem getOrCreate_idempotent (doc : Option UserDoc) (d : UserDoc) (n : Nat)
    (hn : 0 < n) :
    (carregar_configuracoes false ((carregar_configuracoes false doc).1)).2.2 = 0 ∧
    ((carregarN n none).2.1 = List.replicate n padraoDoc ∧
      (carregarN n none).2.2 = 1) ∧
    ((carregar_configuracoes false (some d)).2.1 =
      ⟨some (d.receitas.getD config_padrao_receitas),
       some (d.despesas.getD config_padrao_despesas),
       some (d.investimentos.getD config_padrao_investimentos)⟩ ∧
     (carregar_configuracoes false (some d)).1 =
       some ((carregar_configuracoes false (some d)).2.1)) := by
  refine ⟨?_, ?_, ?_⟩
  · obtain ⟨d1, hd1, h1, h2, h3⟩ := carregar_stored_full doc
    rw [hd1, carregar_writes_zero d1 h1 h2 h3]
  · cases n with
    | zero => omega
    | succ k =>
      constructor
      · simp [carregarN, carregar_configuracoes, carregarN_padrao k, List.replicate_succ]
      · simp [carregarN, carregar_configuracoes, carregarN_padrao k]
  · rcases d with ⟨_ | r, _ | s, _ | i⟩ <;> simp [carregar_configuracoes]

theorem getOrCreate_idempotent_witness :
    0 < 2 ∧
    ((carregarN 2 none).2.1 = List.replicate 2 padraoDoc ∧
      (carregarN 2 none).2.2 = 1) :=
  ⟨by decide, (getOrCreate_idempotent none emptyDoc 2 (by decide)).2.1⟩

/-- C7 counterexample: with a real stored profile, a storage fault makes
`carregar_configuracoes` return the empty dict `{}` — success-shaped data in
place of the user's real data, not a surfaced error (the returned triple is a
normal value, the caller keeps running with it and every `.get(key, [])` on it
reads `[]`). -/
theorem storage_fault_counterexample :
    carregar_configuracoes true (some ⟨some ["Pix"], some ["Aluguel"], some ["CDB"]⟩)
      = (some ⟨some ["Pix"], some ["Aluguel"], some ["CDB"]⟩, emptyDoc, 0) ∧
    emptyDoc.receitas.getD [] = [] ∧
    emptyDoc ≠ ⟨some ["Pix"], some ["Aluguel"], some ["CDB"]⟩ :=
  ⟨rfl, rfl, by decide⟩

/-- C7 amended: when the storage layer raises while loading a profile,
`carregar_configuracoes` catches the exception (reporting it only as a UI
message), performs no write, and returns the empty dict; the caller proceeds
with this stand-in profile, whose three category lists all read as `[]`. -/
theorem storage_fault_amended (doc : Option UserDoc) :
    carregar_configuracoes true doc = (doc, emptyDoc, 0) ∧
    emptyDoc.receitas.getD [] = [] ∧ emptyDoc.despesas.getD [] = [] ∧
    emptyDoc.investimentos.getD [] = [] :=
  ⟨rfl, rfl, rfl, rfl⟩

theorem getCampo_setCampo_ne (d : UserDoc) (c c' : Campo) (v : Option (List String))
    (h : c' ≠ c) : (d.setCampo c v).getCampo c' = d.getCampo c' := by
  cases c <;> cases c' <;> simp_all [UserDoc.getCampo, UserDoc.setCampo]

/-- C8: `gerenciar_categoria (acao = remover)` only rewrites the `usuarios`
document of the given user, and within it only the field selected by `tipo`:
the `lancamentos` collection is untouched, so a subsequent
`buscar_todos_dados` still returns every record of the removed (now-orphaned)
category; other users' documents and the user's other two category lists are
unchanged. -/
theorem remove_category_frame (b : Banco) (email tipo categoria : String) :
    (gerenciar_categoria b email tipo categoria "remover").1.lancamentos
      = b.lancamentos ∧
    (∀ q, buscar_todos_dados
        (gerenciar_categoria b email tipo categoria "remover").1.lancamentos q
      = buscar_todos_dados b.lancamentos q) ∧
    (∀ e, e ≠ email →
      getDoc (gerenciar_categoria b email tipo categoria "remover").1.usuarios e
        = getDoc b.usuarios e) ∧
    (∀ c : Campo, mapa_campos tipo ≠ some c →
      (getDoc (gerenciar_categoria b email tipo categoria "remover").1.usuarios
          email).map (fun d => d.getCampo c)
        = (getDoc b.usuarios email).map (fun d => d.getCampo c)) := by
  rcases hm : mapa_campos tipo with _ | campo
  · simp [gerenciar_categoria, hm]
  · rcases hd : getDoc b.usuarios email with _ | d
    · simp [gerenciar_categoria, hm, hd]
    · simp only [gerenciar_categoria, hm, hd, if_true]
      refine ⟨trivial, fun q => trivial, ?_, ?_⟩
      · intro e he
        exact getDoc_setDoc_ne b.usuarios email e _ he
      · intro c hc
        have hcc : c ≠ campo := by
          intro hh
          rw [hh] at hc
          exact hc rfl
        rw [getDoc_setDoc_self, if_neg (by decide)]
        simp only [Option.map_some']
        rw [getCampo_setCampo_ne d campo c _ hcc]

theorem remove_category_frame_witness :
    ("outro" : String) ≠ "u" ∧ mapa_campos "Receita" ≠ some Campo.despesas ∧
    (getDoc (gerenciar_categoria
        ⟨[("u", padraoDoc)], []⟩ "u" "Receita" "Salário" "remover").1.usuarios
        "outro" = getDoc ([("u", padraoDoc)] : Collection UserDoc) "outro") ∧
    ((getDoc (gerenciar_categoria
        ⟨[("u", padraoDoc)], []⟩ "u" "Receita" "Salário" "remover").1.usuarios
        "u").map (fun d => d.getCampo Campo.despesas)
      = (getDoc ([("u", padraoDoc)] : Collection UserDoc) "u").map
          (fun d => d.getCampo Campo.despesas)) :=
  ⟨by decide, by decide,
    (remove_category_frame ⟨[("u", padraoDoc)], []⟩ "u" "Receita" "Salário").2.2.1
      "outro" (by decide),
    (remove_category_frame ⟨[("u", padraoDoc)], []⟩ "u" "Receita" "Salário").2.2.2
      Campo.despesas (by decide)⟩

theorem getCampo_setCampo_self (d : UserDoc) (c : Campo) (v : Option (List String)) :
    (d.setCampo c v).getCampo c = v := by
  cases c <;> rfl

theorem setCampo_getCampo_self (d : UserDoc) (c : Campo) :
    d.setCampo c (d.getCampo c) = d := by
  cases c <;> rfl

/-- C9 counterexample: a blank category name is not rejected by
`gerenciar_categoria` — the call succeeds (`True` is returned) and the blank
name reaches storage, ending up inside the stored income list. -/
theorem blank_category_counterexample :
    (gerenciar_categoria bancoA "u" "Receita" "" "adicionar").2 = some true ∧
    getDoc (gerenciar_categoria bancoA "u" "Receita" "" "adicionar").1.usuarios "u"
      = some ⟨some ["A", ""], some [], some []⟩ := by
  decide

/-- C9 amended: `gerenciar_categoria` itself performs no name validation (the
blank check lives in the UI layer only): for a valid `tipo` and an existing
user document it applies array-union / array-remove to the selected list for
any name whatsoever, blank included.  Consequently adding an already-present
name leaves the stored database unchanged, and so does removing an absent
name. -/
theorem category_mutation_amended (b : Banco) (email tipo categoria : String)
    (campo : Campo) (d : UserDoc) (l : List String)
    (hm : mapa_campos tipo = some campo) (hd : getDoc b.usuarios email = some d)
    (hl : d.getCampo campo = some l) :
    ((getDoc (gerenciar_categoria b email tipo categoria "adicionar").1.usuarios
        email).map (fun x => x.getCampo campo)
      = some (some (if categoria ∈ l then l else l ++ [categoria]))) ∧
    ((getDoc (gerenciar_categoria b email tipo categoria "remover").1.usuarios
        email).map (fun x => x.getCampo campo)
      = some (some (l.filter (fun x => ¬ x = categoria)))) ∧
    (categoria ∈ l → (gerenciar_categoria b email tipo categoria "adicionar").1 = b) ∧
    (categoria ∉ l → (gerenciar_categoria b email tipo categoria "remover").1 = b) := by
  refine ⟨?_, ?_, ?_, ?_⟩
  · simp only [gerenciar_categoria, hm, hd, if_true]
    rw [getDoc_setDoc_self]
    simp only [Option.map_some']
    rw [getCampo_setCampo_self, arrayUnion, hl]
    simp
  · simp only [gerenciar_categoria, hm, hd, if_true]
    rw [getDoc_setDoc_self]
    simp only [Option.map_some']
    rw [if_neg (by decide), getCampo_setCampo_self, arrayRemove, hl]
    simp
  · intro hmem
    have hv : arrayUnion (d.getCampo campo) categoria = d.getCampo campo := by
      rw [arrayUnion, hl]
      simp [hmem]
    simp only [gerenciar_categoria, hm, hd, if_true, hv, setCampo_getCampo_self]
    rw [setDoc_of_getDoc_eq b.usuarios email d hd]
  · intro hmem
    have hv : arrayRemove (d.getCampo campo) categoria = d.getCampo campo := by
      rw [arrayRemove, hl]
      simp only [Option.getD_some, Option.some.injEq]
      apply List.filter_eq_self.mpr
      intro x hx
      simp only [decide_eq_true_eq]
      intro hxc
      exact hmem (hxc ▸ hx)
    simp only [gerenciar_categoria, hm, hd, if_true, hv, setCampo_getCampo_self]
    rw [if_neg (by decide), setDoc_of_getDoc_eq b.usuarios email d hd]

theorem category_mutation_amended_witness :
    mapa_campos "Receita" = some Campo.receitas ∧
    getDoc bancoA.usuarios "u" = some ⟨some ["A"], some [], some []⟩ ∧
    (UserDoc.getCampo ⟨some ["A"], some [], some []⟩ Campo.receitas = some ["A"]) ∧
    ("A" ∈ (["A"] : List String) →
      (gerenciar_categoria bancoA "u" "Receita" "A" "adicionar").1 = bancoA) :=
  ⟨by decide, by decide, by decide,
    (category_mutation_amended bancoA "u" "Receita" "A" Campo.receitas
      ⟨some ["A"], some [], some []⟩ ["A"] (by decide) (by decide) (by decide)).2.2.1⟩

theorem nodup_keys_setDoc {α : Type} (l : Collection α) (i : String) (p : α)
    (h : (l.map Prod.fst).Nodup) : ((setDoc l i p).map Prod.fst).Nodup := by
  rw [map_fst_setDoc]
  by_cases hm : i ∈ l.map Prod.fst
  · simpa [hm] using h
  · rw [if_neg hm]
    apply h.append (List.nodup_singleton i)
    intro a ha hai
    rw [List.mem_singleton] at hai
    exact hm (hai ▸ ha)

/-- C1 counterexample: the stored id is *not* the normalization-invariant
composite the claim describes.  The code builds
`f"{email}_{mes_ano}_{categoria.replace(' ', '_').lower()}"`: the userId is
used verbatim (not trimmed or lower-cased here) and the category name is not
trimmed.  Hence two upserts whose arguments differ only in the case of the
userId — which under the claimed normalization share one identity and must
end as a single record — produce two distinct stored records; likewise a
leading space in the category changes the id instead of being trimmed away. -/
theorem composite_id_counterexample :
    doc_id "A@x.com" "2026-01" "Rent" ≠ doc_id "a@x.com" "2026-01" "Rent" ∧
    doc_id "u" "2026-01" " Rent" ≠ doc_id "u" "2026-01" "Rent" ∧
    (salvar_transacao (salvar_transacao [] 0 "A@x.com" "2026-01" "Rent" "Despesa" 5).1
        1 "a@x.com" "2026-01" "Rent" "Despesa" 7).1.length = 2 := by
  refine ⟨by decide, by decide, by decide⟩

/-- C1 amended: the stored document id is the deterministic composite
`email ++ "_" ++ periodKey ++ "_" ++ lower(categoryName with spaces replaced
by underscores)` — the email as passed (the login layer has already trimmed
and lower-cased it) and the category not trimmed.  With this id, upserting
twice with the same arguments leaves exactly one record under that identity,
holding the second write's amount and timestamp (full replacement,
latest-value-wins). -/
theorem upsert_replacement_amended (store : Collection Lancamento)
    (clock1 clock2 : Nat) (email mes_ano categoria tipo : String) (v1 v2 : ℚ)
    (h : (store.map Prod.fst).Nodup) :
    doc_id email mes_ano categoria
      = email ++ "_" ++ mes_ano ++ "_" ++ pyLower (pyUnderscore categoria) ∧
    ((salvar_transacao (salvar_transacao store clock1 email mes_ano categoria tipo v1).1
        clock2 email mes_ano categoria tipo v2).1.countP
        (fun kv => kv.1 == doc_id email mes_ano categoria) = 1) ∧
    getDoc (salvar_transacao (salvar_transacao store clock1 email mes_ano categoria tipo v1).1
        clock2 email mes_ano categoria tipo v2).1 (doc_id email mes_ano categoria)
      = some ⟨email, mes_ano, categoria, tipo, v2, clock2⟩ := by
  refine ⟨rfl, ?_, ?_⟩
  · exact countP_setDoc _ _ _ (nodup_keys_setDoc store _ _ h)
  · exact getDoc_setDoc_self _ _ _

theorem upsert_replacement_amended_witness :
    (([] : Collection Lancamento).map Prod.fst).Nodup ∧
    ((salvar_transacao (salvar_transacao [] 0 "a@x.com" "2026-01" "Rent" "Despesa" 5).1
        1 "a@x.com" "2026-01" "Rent" "Despesa" 7).1.countP
        (fun kv => kv.1 == doc_id "a@x.com" "2026-01" "Rent") = 1) ∧
    getDoc (salvar_transacao (salvar_transacao [] 0 "a@x.com" "2026-01" "Rent" "Despesa" 5).1
        1 "a@x.com" "2026-01" "Rent" "Despesa" 7).1 (doc_id "a@x.com" "2026-01" "Rent")
      = some ⟨"a@x.com", "2026-01", "Rent", "Despesa", 7, 1⟩ :=
  ⟨by decide,
    (upsert_replacement_amended [] 0 1 "a@x.com" "2026-01" "Rent" "Despesa" 5 7
      (by decide)).2⟩

/-- C5 counterexample: a call with a malformed period key *and* a negative
amount is not rejected: `salvar_transacao` reports success and writes the
record to storage unchanged.  The `ValidationError`-before-storage behaviour
claimed for the core does not exist in the code (only the UI's
`min_value=0` input constraint stands between negative values and storage). -/
theorem upsert_no_validation_counterexample :
    (salvar_transacao [] 0 "u@x.com" "not-a-period" "Cat" "Despesa" (-50)).2 = true ∧
    (salvar_transacao [] 0 "u@x.com" "not-a-period" "Cat" "Despesa" (-50)).1
      = [(doc_id "u@x.com" "not-a-period" "Cat",
          ⟨"u@x.com", "not-a-period", "Cat", "Despesa", -50, 0⟩)] := by
  refine ⟨rfl, by decide⟩

/-- C5 amended: `salvar_transacao` validates nothing: for every input —
including period keys not of the `YYYY-MM` form and negative amounts — it
writes the full replacement record under the composite id and returns
success. -/
theorem upsert_no_validation_amended (store : Collection Lancamento) (clock : Nat)
    (email mes_ano categoria tipo : String) (valor : ℚ) :
    (salvar_transacao store clock email mes_ano categoria tipo valor).2 = true ∧
    getDoc (salvar_transacao store clock email mes_ano categoria tipo valor).1
        (doc_id email mes_ano categoria)
      = some ⟨email, mes_ano, categoria, tipo, valor, clock⟩ :=
  ⟨rfl, getDoc_setDoc_self _ _ _⟩

theorem tab_receitas_fields (receitas lista : List String) (mapa novo : String → ℚ) :
    (tab_receitas receitas lista mapa novo).1
      = receitas.filter (fun c => ¬ c ∈ lista) := by
  induction receitas with
  | nil => rfl
  | cons c rest ih =>
    by_cases hc : c ∈ lista
    · simp [tab_receitas, hc, ih]
    · simp [tab_receitas, hc, ih]

theorem tab_receitas_total (receitas lista : List String) (mapa novo : String → ℚ) :
    (tab_receitas receitas lista mapa novo).2.2
      = ((receitas.filter (fun c => ¬ c ∈ lista)).map novo).sum := by
  induction receitas with
  | nil => rfl
  | cons c rest ih =>
    by_cases hc : c ∈ lista
    · simp [tab_receitas, hc, ih]
    · by_cases hv : novo c = mapa c <;> simp [tab_receitas, hc, hv, ih]

theorem tab_receitas_upserts (receitas lista : List String) (mapa novo : String → ℚ) :
    ∀ u ∈ (tab_receitas receitas lista mapa novo).2.1, ¬ u.1 ∈ lista := by
  induction receitas with
  | nil => intro u hu; simp [tab_receitas] at hu
  | cons c rest ih =>
    intro u hu
    by_cases hc : c ∈ lista
    · rw [tab_receitas, if_pos hc] at hu
      exact ih u hu
    · rw [tab_receitas, if_neg hc] at hu
      by_cases hv : novo c = mapa c
      · rw [if_pos hv] at hu
        exact ih u hu
      · rw [if_neg hv] at hu
        rcases List.mem_cons.mp hu with h | h
        · rw [h]
          exact hc
        · exact ih u h

/-- C10: a category appearing in both the income list and the investment list
is silently skipped by the income tab: it is not rendered as an input field,
no `Receita` upsert is ever issued for it, and the displayed income total is
the sum over only the non-shared income categories — while the income list
itself (a pure input of the loop) keeps containing it. -/
theorem income_tab_skips_shared_categories (receitas lista : List String)
    (mapa novo : String → ℚ) :
    (tab_receitas receitas lista mapa novo).1
      = receitas.filter (fun c => ¬ c ∈ lista) ∧
    (tab_receitas receitas lista mapa novo).2.2
      = ((receitas.filter (fun c => ¬ c ∈ lista)).map novo).sum ∧
    (∀ c, c ∈ lista →
      (¬ c ∈ (tab_receitas receitas lista mapa novo).1 ∧
       ∀ u ∈ (tab_receitas receitas lista mapa novo).2.1, ¬ u.1 = c)) := by
  refine ⟨tab_receitas_fields receitas lista mapa novo,
    tab_receitas_total receitas lista mapa novo, ?_⟩
  intro c hc
  constructor
  · rw [tab_receitas_fields]
    intro hmem
    have h2 := (List.mem_filter.mp hmem).2
    rw [decide_eq_true_eq] at h2
    exact h2 hc
  · intro u hu he
    exact tab_receitas_upserts receitas lista mapa novo u hu (he ▸ hc)

theorem income_tab_skips_shared_categories_witness :
    ("CDB" : String) ∈ ["CDB", "Ações"] ∧
    (¬ "CDB" ∈ (tab_receitas ["Salário", "CDB"] ["CDB", "Ações"]
        (fun _ => 0) (fun _ => 100)).1 ∧
     ∀ u ∈ (tab_receitas ["Salário", "CDB"] ["CDB", "Ações"]
        (fun _ => 0) (fun _ => 100)).2.1, ¬ u.1 = "CDB") :=
  ⟨by decide,
    (income_tab_skips_shared_categories ["Salário", "CDB"] ["CDB", "Ações"]
      (fun _ => 0) (fun _ => 100)).2.2 "CDB" (by decide)⟩

end ControleFinanceiro
